import Mathlib

/-!
Verification of the soft-delete statement interceptor (src/soft_delete.go).

The Go package intercepts statement building of a host ORM (gorm): a query
filter appends a `field = FlagActived` WHERE condition, an update filter
reuses the query filter, and a delete rewriter turns a DELETE into an
UPDATE that sets the flag.  The embedding below mirrors the Go code over an
explicit statement record.  Values of dynamic type `interface\x7b\x7d` are
modelled by `GoVal` (with `GoVal.null` for the nil interface value), gorm
clause expressions by `Expr`, and the statement clause map by an
association list from clause names to clauses.  Host-framework machinery
(reflection over the destination object, SQL text generation) is out of
scope for the package and enters the model as abstract inputs carried on
the statement record.
-/

/-- A dynamically typed Go value (`interface\x7b\x7d`); `null` is the nil
interface value. -/
inductive GoVal where
  | null : GoVal
  | bool (b : Bool) : GoVal
  | int (n : Int) : GoVal
  | str (s : String) : GoVal
deriving DecidableEq, Repr

/-- gorm `clause.Column`: a table qualifier and a column name.  The Go zero
value has an empty table string. -/
structure Column where
  table : String
  name : String
deriving DecidableEq, Repr

/-- `clause.CurrentTable`, the marker string gorm substitutes with the
statement table. -/
def currentTable : String := "@@@ct@@@"

/-- The column argument of a `clause.IN` produced by `schema.ToQueryValues`:
a single column for a single primary key, a column list for a composite
key. -/
inductive InColumn where
  | single (c : Column) : InColumn
  | multi (cs : List Column) : InColumn
deriving DecidableEq, Repr

/-- gorm clause expressions, restricted to the constructors the package
manipulates.  `raw` stands for any other expression kind that may already
sit in a WHERE clause. -/
inductive Expr where
  | eq (col : Column) (value : GoVal) : Expr
  | inPred (col : InColumn) (values : List GoVal) : Expr
  | orConds (exprs : List Expr) : Expr
  | andConds (exprs : List Expr) : Expr
  | whereC (exprs : List Expr) : Expr
  | setC (assigns : List (Column × GoVal)) : Expr
  | updateC : Expr
  | raw (s : String) : Expr
deriving Repr

/-- gorm `clause.Clause`, reduced to the fields the package touches: the
clause name and the merged expression (`none` is the nil expression of the
zero value `clause.Clause\x7b\x7d`). -/
structure Clause where
  name : String
  expression : Option Expr
deriving Repr

/-- Lookup in the statement clause map (`stmt.Clauses[k]` presence test). -/
def lookupClause : List (String × Clause) → String → Option Clause
  | [], _ => none
  | (k, c) :: rest, key => if k = key then some c else lookupClause rest key

/-- Map write `stmt.Clauses[k] = c`. -/
def setAssoc : List (String × Clause) → String → Clause → List (String × Clause)
  | [], key, c => [(key, c)]
  | (k, c₀) :: rest, key, c =>
    if k = key then (key, c) :: rest else (k, c₀) :: setAssoc rest key c

/-- The slice of `schema.Field` the package reads: column name, declared
default value, and the gorm data type (`schema.DataType` is a string;
`schema.Bool = "bool"`). -/
structure schema.Field where
  DBName : String
  DefaultValue : String
  GORMDataType : String
deriving DecidableEq, Repr

/-- `getTimeType` (line 181): always `schema.Bool`. -/
def getTimeType : String := "bool"

/-- Package variable `FlagDeleted = true` (line 15). -/
def FlagDeleted : Bool := true

/-- Package variable `FlagActived = false` (line 16). -/
def FlagActived : Bool := false

/-- The `gorm.Statement` surface the package reads and writes.  `clauses`,
`changed` and `buildCalled` are mutated by the hooks; the remaining fields
are read-only inputs.  `sqlLen` is `stmt.SQL.Len()`, `unscoped` is
`stmt.Statement.Unscoped`, `changed` is the change-set written through
`stmt.SetColumn`.  The primary-key data extracted by the host framework
(`schema.GetIdentityFieldValuesMap` composed with `schema.ToQueryValues`
on the destination object and on the model object) and the three guard
booleans of line 165 (`stmt.ReflectValue.CanAddr()`,
`stmt.Dest != stmt.Model`, `stmt.Model != nil`) are abstract inputs. -/
structure Statement where
  clauses : List (String × Clause)
  unscoped : Bool
  sqlLen : Nat
  schemaPresent : Bool
  destPKColumn : InColumn
  destPKValues : List GoVal
  reflectCanAddr : Bool
  destNeModel : Bool
  modelNotNil : Bool
  modelPKColumn : InColumn
  modelPKValues : List GoVal
  changed : List (String × GoVal)
  buildCalled : Bool
deriving Repr

/-- `stmt.SetColumn(name, value, true)`: record the assignment on the
change-set of the statement. -/
def setColumn (s : Statement) (n : String) (v : GoVal) : Statement :=
  { s with changed := s.changed ++ [(n, v)] }

/-- `stmt.AddClause` on a `clause.Where`: fetch the clause (zero value if
absent), set its name, and merge — `Where.MergeClause` appends the new
expressions after the existing ones when the stored expression is a
`Where`, and replaces it otherwise. -/
def addWhereC (cl : List (String × Clause)) (es : List Expr) : List (String × Clause) :=
  let c := (lookupClause cl "WHERE").getD ⟨"", none⟩
  let merged : Expr :=
    match c.expression with
    | some (.whereC old) => .whereC (old ++ es)
    | _ => .whereC es
  setAssoc cl "WHERE" ⟨"WHERE", some merged⟩

/-- `stmt.AddClause` on a `clause.Set`: `Set.MergeClause` replaces the
stored expression with the assignment list. -/
def addSetC (cl : List (String × Clause)) (assigns : List (Column × GoVal)) :
    List (String × Clause) :=
  setAssoc cl "SET" ⟨"SET", some (.setC assigns)⟩

/-- `stmt.AddClauseIfNotExists(clause.Update\x7b\x7d)` (line 176): add the
empty UPDATE clause when the clause is absent or its expression is nil. -/
def addUpdateC (cl : List (String × Clause)) : List (String × Clause) :=
  match lookupClause cl "UPDATE" with
  | some c =>
    match c.expression with
    | none => setAssoc cl "UPDATE" ⟨"UPDATE", some .updateC⟩
    | some _ => cl
  | none => setAssoc cl "UPDATE" ⟨"UPDATE", some .updateC⟩

/-- Whether an expression is a `clause.OrConditions` with exactly one
sub-expression — the shape tested by the loop on line 66. -/
def isSingleOr : Expr → Bool
  | .orConds [_] => true
  | _ => false

/-- Whether an expression is a `clause.OrConditions` (the type assertion in
`clause.And`). -/
def isOrConds : Expr → Bool
  | .orConds _ => true
  | _ => false

/-- gorm `clause.And`: one non-or expression is returned as is, otherwise
the expressions are wrapped in `AndConditions`.  The empty case (nil in Go)
is unreachable from the package: the only call site guards
`len(where.Exprs) >= 1`. -/
def clauseAnd : List Expr → Expr
  | [] => .andConds []
  | [e] => if isOrConds e then .andConds [e] else e
  | es => .andConds es

/-- Lines 63 to 74: when the WHERE clause holds a `Where` with at least one
expression among which some `OrConditions` has exactly one sub-expression,
replace the expression list by the single `clause.And` of all of them. -/
def normalizeWhereOr (cl : List (String × Clause)) : List (String × Clause) :=
  match lookupClause cl "WHERE" with
  | some c =>
    match c.expression with
    | some (.whereC exprs) =>
      if 1 ≤ exprs.length ∧ exprs.any isSingleOr = true then
        setAssoc cl "WHERE" { c with expression := some (.whereC [clauseAnd exprs]) }
      else cl
    | _ => cl
  | none => cl

/-- Lines 76 to 84: the condition the query filter appends — `field IS
NULL` when the declared default value is the string "null", and
`field = FlagActived` otherwise. -/
def softDeleteCond (f : schema.Field) : Expr :=
  if f.DefaultValue = "null" then
    .eq ⟨currentTable, f.DBName⟩ .null
  else
    .eq ⟨currentTable, f.DBName⟩ (.bool FlagActived)

/-- The clause-map transformation of `SoftDeleteQueryClause.ModifyStatement`
(lines 61 to 87): when the idempotency marker is absent and the statement
is not unscoped, normalize a top-level or-condition, append the soft-delete
condition through `AddClause`, and set the marker to the zero clause. -/
def queryFilterClauses (f : schema.Field) (unscoped : Bool) (cl : List (String × Clause)) :
    List (String × Clause) :=
  if (lookupClause cl "soft_delete_enabled").isNone = true ∧ unscoped = false then
    let cl := normalizeWhereOr cl
    let cl := addWhereC cl [softDeleteCond f]
    setAssoc cl "soft_delete_enabled" ⟨"", none⟩
  else cl

/-- `SoftDeleteQueryClause` (line 47). -/
structure SoftDeleteQueryClause where
  Field : schema.Field

/-- `SoftDeleteQueryClause.ModifyStatement` (lines 61 to 87). -/
def SoftDeleteQueryClause.ModifyStatement (sd : SoftDeleteQueryClause) (stmt : Statement) :
    Statement :=
  { stmt with clauses := queryFilterClauses sd.Field stmt.unscoped stmt.clauses }

/-- `SoftDeleteUpdateClause` (line 101). -/
structure SoftDeleteUpdateClause where
  Field : schema.Field

/-- `SoftDeleteUpdateClause.ModifyStatement` (lines 115 to 119): when the
SQL buffer is empty and the statement is not unscoped, run the query filter
on the same field. -/
def SoftDeleteUpdateClause.ModifyStatement (sd : SoftDeleteUpdateClause) (stmt : Statement) :
    Statement :=
  if stmt.sqlLen = 0 ∧ stmt.unscoped = false then
    SoftDeleteQueryClause.ModifyStatement ⟨sd.Field⟩ stmt
  else stmt

/-- `SoftDeleteDeleteClause` (lines 121 to 126). -/
structure SoftDeleteDeleteClause where
  Field : schema.Field
  Flag : Bool
  DataType : String
  DeleteAtField : Option schema.Field

/-- Lines 145 to 148: the value assigned to the companion deletion field —
`true` for a boolean companion, the nil interface value otherwise. -/
def companionValue (daf : schema.Field) : GoVal :=
  if daf.GORMDataType = "bool" then .bool true else .null

/-- Lines 144 to 151: the companion part of the SET assignment list —
one assignment on the companion column when `DeleteAtField` is set. -/
def companionAssignments (sd : SoftDeleteDeleteClause) : List (Column × GoVal) :=
  match sd.DeleteAtField with
  | some daf => [(⟨"", daf.DBName⟩, companionValue daf)]
  | none => []

/-- Lines 140 to 155: record the companion assignment (when present) and
the flag assignment on the change-set, and store the SET clause whose
assignment list puts the flag assignment first. -/
def deleteSetColumns (sd : SoftDeleteDeleteClause) (stmt : Statement) : Statement :=
  let stmt1 :=
    match sd.DeleteAtField with
    | some daf => setColumn stmt daf.DBName (companionValue daf)
    | none => stmt
  let stmt2 := setColumn stmt1 sd.Field.DBName (.bool FlagDeleted)
  let set := (⟨"", sd.Field.DBName⟩, GoVal.bool FlagDeleted) :: companionAssignments sd
  { stmt2 with clauses := addSetC stmt2.clauses set }

/-- Lines 161 to 171 condensed: `if len(values) > 0` guard around adding
one IN predicate. -/
def addINIfAny (stmt : Statement) (col : InColumn) (vals : List GoVal) : Statement :=
  if 0 < vals.length then
    { stmt with clauses := addWhereC stmt.clauses [.inPred col vals] }
  else stmt

/-- Lines 157 to 173: when the statement has a schema, add an IN predicate
over the identity values of the destination object when any resolved, and,
when the reflect value is addressable, the destination differs from the
model and the model is non-nil, the same for the identity values of the
model object. -/
def deleteIdentityWheres (stmt : Statement) : Statement :=
  if stmt.schemaPresent = true then
    let s := addINIfAny stmt stmt.destPKColumn stmt.destPKValues
    if s.reflectCanAddr = true ∧ s.destNeModel = true ∧ s.modelNotNil = true then
      addINIfAny s s.modelPKColumn s.modelPKValues
    else s
  else stmt

/-- Line 177, `stmt.Build(stmt.DB.Callback().Update().Clauses...)`: the
host framework generates the UPDATE SQL text; the model only tracks that
the update build pipeline ran. -/
def runUpdateBuild (stmt : Statement) : Statement :=
  { stmt with buildCalled := true }

/-- Line 176 lifted to statements. -/
def addUpdateIfNotExists (stmt : Statement) : Statement :=
  { stmt with clauses := addUpdateC stmt.clauses }

/-- `SoftDeleteDeleteClause.ModifyStatement` (lines 138 to 179). -/
def SoftDeleteDeleteClause.ModifyStatement (sd : SoftDeleteDeleteClause) (stmt : Statement) :
    Statement :=
  if stmt.sqlLen = 0 ∧ stmt.unscoped = false then
    runUpdateBuild
      (addUpdateIfNotExists
        (SoftDeleteQueryClause.ModifyStatement ⟨sd.Field⟩
          (deleteIdentityWheres (deleteSetColumns sd stmt))))
  else stmt

/-- `DeletedAt.Value` (lines 24 to 29): marshal the flag to a plain boolean;
never fails (the error component is always `none`). -/
def DeletedAt.Value (b : Bool) : GoVal × Option String :=
  if b then (.bool true, none) else (.bool false, none)

/-- `DeletedAt.Scan` (lines 32 to 45): the receiver value after the call
paired with the returned error.  A non-boolean input leaves the receiver
untouched and returns the error; a boolean input overwrites the
receiver. -/
def DeletedAt.Scan (b : Bool) (value : GoVal) : Bool × Option String :=
  match value with
  | .bool boolVal => (if boolVal then (true, none) else (false, none))
  | _ => (b, some "Invalid data type for DeletedAt")

/-- Whether a `GoVal` carries a Go `bool` (the type assertion on
line 33). -/
def GoVal.isBool : GoVal → Bool
  | .bool _ => true
  | _ => false

/-- gorm renders `Eq` with nil value as `IS NULL`; a row models a database
record as an association of column names to values, absent columns reading
as SQL NULL. -/
def rowGet : List (String × GoVal) → String → GoVal
  | [], _ => .null
  | (k, v) :: rest, n => if k = n then v else rowGet rest n

mutual
/-- Truth value of a clause expression on a row.  `eq` with a null value is
the `IS NULL` test; `andConds` and `orConds` are conjunction and
disjunction; `whereC` follows the WHERE build rule of the host framework:
expressions are joined by AND except that an `OrConditions` holding exactly
one expression joins with OR, AND binding tighter than OR.  Non-predicate
clause expressions (`setC`, `updateC`) have no row semantics and read as
true; `raw` fragments are unknown and read as false. -/
def evalExpr (row : List (String × GoVal)) : Expr → Bool
  | .eq col v => rowGet row col.name == v
  | .inPred col vs =>
    match col with
    | .single c => vs.contains (rowGet row c.name)
    | .multi _ => false
  | .orConds es => evalAnyE row es
  | .andConds es => evalAllE row es
  | .whereC es => evalWhereE row es
  | .setC _ => true
  | .updateC => true
  | .raw _ => false

/-- Disjunction of a list of expressions on a row. -/
def evalAnyE (row : List (String × GoVal)) : List Expr → Bool
  | [] => false
  | e :: rest => evalExpr row e || evalAnyE row rest

/-- Conjunction of a list of expressions on a row. -/
def evalAllE (row : List (String × GoVal)) : List Expr → Bool
  | [] => true
  | e :: rest => evalExpr row e && evalAllE row rest

/-- Top-level WHERE expression list on a row. -/
def evalWhereE (row : List (String × GoVal)) : List Expr → Bool
  | [] => true
  | e :: rest => evalWhereTail row (evalExpr row e) false rest

/-- Accumulator pass for `evalWhereE`: `cur` is the truth value of the
current AND run, `acc` the disjunction of the completed runs. -/
def evalWhereTail (row : List (String × GoVal)) (cur acc : Bool) : List Expr → Bool
  | [] => acc || cur
  | e :: rest =>
    if isSingleOr e then evalWhereTail row (evalExpr row e) (acc || cur) rest
    else evalWhereTail row (cur && evalExpr row e) acc rest
end

/-- The WHERE expression list of a clause map (empty when the clause is
absent or holds no `Where` expression). -/
def whereOf (cl : List (String × Clause)) : List Expr :=
  match lookupClause cl "WHERE" with
  | some ⟨_, some (.whereC es)⟩ => es
  | _ => []

/-- The WHERE expression list of a statement. -/
def whereExprsOf (s : Statement) : List Expr := whereOf s.clauses

/-- The IN predicates `deleteIdentityWheres` appends, as a function of the
abstract identity inputs of the statement. -/
def identityIns (s : Statement) : List Expr :=
  if s.schemaPresent = true then
    (if 0 < s.destPKValues.length then [Expr.inPred s.destPKColumn s.destPKValues] else [])
      ++ (if s.reflectCanAddr = true ∧ s.destNeModel = true ∧ s.modelNotNil = true then
            (if 0 < s.modelPKValues.length then [Expr.inPred s.modelPKColumn s.modelPKValues] else [])
          else [])
  else []

/-- A soft-delete field with a boolean default, named as in the README
example. -/
def sampleField : schema.Field := ⟨"deleted_at", "", "bool"⟩

/-- A soft-delete field whose declared default value is the string
"null". -/
def nullDefaultField : schema.Field := ⟨"deleted_at", "null", "bool"⟩

/-- Sample query clause. -/
def sampleQueryClause : SoftDeleteQueryClause := ⟨sampleField⟩

/-- Sample update clause. -/
def sampleUpdateClause : SoftDeleteUpdateClause := ⟨sampleField⟩

/-- Sample delete clause without a companion deletion field. -/
def sampleDeleteClause : SoftDeleteDeleteClause := ⟨sampleField, false, getTimeType, none⟩

/-- Sample delete clause with a boolean companion deletion field. -/
def sampleDeleteClauseWithCompanion : SoftDeleteDeleteClause :=
  ⟨sampleField, false, getTimeType, some ⟨"is_del", "", "bool"⟩⟩

/-- A freshly created statement: no clauses yet, scoped access, empty SQL
buffer, one destination identity value `7`, no divergent model object. -/
def emptyStmt : Statement :=
  { clauses := []
    unscoped := false
    sqlLen := 0
    schemaPresent := true
    destPKColumn := .single ⟨"users", "id"⟩
    destPKValues := [.int 7]
    reflectCanAddr := false
    destNeModel := false
    modelNotNil := false
    modelPKColumn := .single ⟨"users", "id"⟩
    modelPKValues := []
    changed := []
    buildCalled := false }

/-- `emptyStmt` with unfiltered (unscoped) access requested. -/
def unscopedStmt : Statement := { emptyStmt with unscoped := true }

/-- `emptyStmt` with a WHERE clause holding a one-branch or-condition, the
shape the normalization of lines 63 to 74 targets. -/
def orStmt : Statement :=
  { emptyStmt with clauses :=
      [("WHERE", ⟨"WHERE", some (.whereC
        [.eq ⟨"", "name"⟩ (.str "a"), .orConds [.eq ⟨"", "name"⟩ (.str "b")]])⟩)] }

/-- `emptyStmt` with a non-empty SQL buffer. -/
def builtStmt : Statement := { emptyStmt with sqlLen := 12 }

/-- A row of the backing store whose soft-delete flag is set. -/
def deletedRow : List (String × GoVal) := [("id", .int 7), ("deleted_at", .bool true)]

theorem lookup_setAssoc_self (l : List (String × Clause)) (k : String) (c : Clause) :
    lookupClause (setAssoc l k c) k = some c := by
  induction l with
  | nil => simp [setAssoc, lookupClause]
  | cons hd tl ih =>
    obtain ⟨k0, c0⟩ := hd
    by_cases h : k0 = k
    · simp [setAssoc, lookupClause, h]
    · simp [setAssoc, lookupClause, h, ih]

theorem lookup_setAssoc_ne (l : List (String × Clause)) (k k' : String) (c : Clause)
    (h : k' ≠ k) : lookupClause (setAssoc l k c) k' = lookupClause l k' := by
  induction l with
  | nil => simp [setAssoc, lookupClause, Ne.symm h]
  | cons hd tl ih =>
    obtain ⟨k0, c0⟩ := hd
    by_cases hk : k0 = k
    · subst hk
      simp [setAssoc, lookupClause, Ne.symm h]
    · simp [setAssoc, lookupClause, hk, ih]

theorem whereOf_addWhereC (cl : List (String × Clause)) (es : List Expr) :
    whereOf (addWhereC cl es) = whereOf cl ++ es := by
  unfold whereOf addWhereC
  rcases h : lookupClause cl "WHERE" with _ | ⟨nm, ex⟩
  · simp [h, lookup_setAssoc_self]
  · rcases ex with _ | e
    · simp [h, lookup_setAssoc_self]
    · cases e <;> simp [h, lookup_setAssoc_self]

theorem lookup_addWhereC_ne (cl : List (String × Clause)) (es : List Expr) (k : String)
    (h : k ≠ "WHERE") : lookupClause (addWhereC cl es) k = lookupClause cl k := by
  unfold addWhereC
  exact lookup_setAssoc_ne _ _ _ _ h

theorem lookup_addSetC_ne (cl : List (String × Clause)) (a : List (Column × GoVal)) (k : String)
    (h : k ≠ "SET") : lookupClause (addSetC cl a) k = lookupClause cl k := by
  unfold addSetC
  exact lookup_setAssoc_ne _ _ _ _ h

theorem whereOf_addSetC (cl : List (String × Clause)) (a : List (Column × GoVal)) :
    whereOf (addSetC cl a) = whereOf cl := by
  unfold whereOf
  rw [lookup_addSetC_ne _ _ _ (by decide)]

theorem lookup_addUpdateC_ne (cl : List (String × Clause)) (k : String)
    (h : k ≠ "UPDATE") : lookupClause (addUpdateC cl) k = lookupClause cl k := by
  unfold addUpdateC
  rcases hu : lookupClause cl "UPDATE" with _ | ⟨nm, ex⟩
  · exact lookup_setAssoc_ne _ _ _ _ h
  · rcases ex with _ | e
    · exact lookup_setAssoc_ne _ _ _ _ h
    · rfl

theorem whereOf_addUpdateC (cl : List (String × Clause)) :
    whereOf (addUpdateC cl) = whereOf cl := by
  unfold whereOf
  rw [lookup_addUpdateC_ne _ _ (by decide)]

theorem whereOf_lookup_some (cl : List (String × Clause)) (nm : String) (es : List Expr)
    (hw : lookupClause cl "WHERE" = some ⟨nm, some (.whereC es)⟩) : whereOf cl = es := by
  unfold whereOf
  rw [hw]

theorem whereOf_lookup_none (cl : List (String × Clause))
    (hw : lookupClause cl "WHERE" = none) : whereOf cl = [] := by
  unfold whereOf
  rw [hw]

theorem lookup_normalizeWhereOr_ne (cl : List (String × Clause)) (k : String)
    (h : k ≠ "WHERE") : lookupClause (normalizeWhereOr cl) k = lookupClause cl k := by
  unfold normalizeWhereOr
  rcases hw : lookupClause cl "WHERE" with _ | ⟨nm, ex⟩
  · rfl
  · rcases ex with _ | e
    · rfl
    · cases e
      case whereC exprs =>
        dsimp only
        by_cases hg : 1 ≤ exprs.length ∧ exprs.any isSingleOr = true
        · rw [if_pos hg]
          exact lookup_setAssoc_ne _ _ _ _ h
        · rw [if_neg hg]
      all_goals rfl

theorem whereOf_normalizeWhereOr (cl : List (String × Clause)) :
    whereOf (normalizeWhereOr cl) =
      if (whereOf cl).any isSingleOr = true then [clauseAnd (whereOf cl)] else whereOf cl := by
  unfold normalizeWhereOr
  rcases hw : lookupClause cl "WHERE" with _ | ⟨nm, ex⟩
  · rw [whereOf_lookup_none cl hw]
    simp
  · rcases ex with _ | e
    · have h0 : whereOf cl = [] := by
        unfold whereOf
        rw [hw]
      dsimp only
      rw [h0]
      simp
    · cases e
      case whereC exprs =>
        have hx : whereOf cl = exprs := whereOf_lookup_some cl nm exprs hw
        dsimp only
        rw [hx]
        by_cases ha : exprs.any isSingleOr = true
        · have hlen : 1 ≤ exprs.length := by
            rcases List.any_eq_true.mp ha with ⟨x, hxm, _⟩
            exact List.length_pos.mpr (List.ne_nil_of_mem hxm)
          rw [if_pos ⟨hlen, ha⟩, if_pos ha]
          exact whereOf_lookup_some _ nm _ (lookup_setAssoc_self _ _ _)
        · rw [if_neg fun hc => ha hc.2, if_neg ha]
          exact hx
      all_goals
        have h0 : whereOf cl = [] := by
          unfold whereOf
          rw [hw]
      all_goals dsimp only
      all_goals rw [h0]
      all_goals simp

theorem normalizeWhereOr_noop (cl : List (String × Clause))
    (h : (whereOf cl).any isSingleOr = false) : normalizeWhereOr cl = cl := by
  unfold normalizeWhereOr
  rcases hw : lookupClause cl "WHERE" with _ | ⟨nm, ex⟩
  · rfl
  · rcases ex with _ | e
    · rfl
    · cases e
      case whereC exprs =>
        have hx : whereOf cl = exprs := whereOf_lookup_some cl nm exprs hw
        rw [hx] at h
        dsimp only
        rw [if_neg]
        intro hc
        rw [h] at hc
        exact Bool.false_ne_true hc.2
      all_goals rfl

theorem softDeleteCond_not_singleOr (f : schema.Field) : isSingleOr (softDeleteCond f) = false := by
  unfold softDeleteCond
  split <;> rfl

theorem clauseAnd_not_singleOr (es : List Expr) (h : es.any isSingleOr = true) :
    isSingleOr (clauseAnd es) = false := by
  match es with
  | [] => simp at h
  | [e] =>
    have he : isSingleOr e = true := by
      simpa using h
    have ho : isOrConds e = true := by
      cases e <;> simp_all [isSingleOr, isOrConds]
    simp [clauseAnd, ho, isSingleOr]
  | e₁ :: e₂ :: rest => rfl

theorem clauseAnd_of_any_singleOr (es : List Expr) (h : es.any isSingleOr = true) :
    clauseAnd es = .andConds es := by
  match es with
  | [] => simp at h
  | [e] =>
    have he : isSingleOr e = true := by
      simpa using h
    have ho : isOrConds e = true := by
      cases e <;> simp_all [isSingleOr, isOrConds]
    simp [clauseAnd, ho]
  | e₁ :: e₂ :: rest => rfl

theorem qfc_unscoped (f : schema.Field) (cl : List (String × Clause)) :
    queryFilterClauses f true cl = cl := by
  unfold queryFilterClauses
  rw [if_neg]
  intro hc
  exact Bool.false_ne_true hc.2.symm

theorem qfc_marker_present (f : schema.Field) (u : Bool) (cl : List (String × Clause))
    (h : (lookupClause cl "soft_delete_enabled").isNone = false) :
    queryFilterClauses f u cl = cl := by
  unfold queryFilterClauses
  rw [if_neg]
  intro hc
  rw [h] at hc
  exact Bool.false_ne_true hc.1

theorem qfc_applied (f : schema.Field) (cl : List (String × Clause))
    (h : lookupClause cl "soft_delete_enabled" = none) :
    queryFilterClauses f false cl =
      setAssoc (addWhereC (normalizeWhereOr cl) [softDeleteCond f]) "soft_delete_enabled" ⟨"", none⟩ := by
  unfold queryFilterClauses
  rw [if_pos]
  exact ⟨by rw [h]; rfl, rfl⟩

theorem whereOf_qfc (f : schema.Field) (cl : List (String × Clause))
    (h : lookupClause cl "soft_delete_enabled" = none) :
    whereOf (queryFilterClauses f false cl) =
      whereOf (normalizeWhereOr cl) ++ [softDeleteCond f] := by
  rw [qfc_applied f cl h]
  have h1 : whereOf (setAssoc (addWhereC (normalizeWhereOr cl) [softDeleteCond f])
      "soft_delete_enabled" ⟨"", none⟩) =
      whereOf (addWhereC (normalizeWhereOr cl) [softDeleteCond f]) := by
    unfold whereOf
    rw [lookup_setAssoc_ne _ _ _ _ (by decide)]
  rw [h1, whereOf_addWhereC]

theorem whereOf_qfc_noor (f : schema.Field) (cl : List (String × Clause))
    (h : lookupClause cl "soft_delete_enabled" = none)
    (hno : (whereOf cl).any isSingleOr = false) :
    whereOf (queryFilterClauses f false cl) = whereOf cl ++ [softDeleteCond f] := by
  rw [whereOf_qfc f cl h, normalizeWhereOr_noop cl hno]

theorem qfc_out_noor (f : schema.Field) (cl : List (String × Clause))
    (h : lookupClause cl "soft_delete_enabled" = none) :
    (whereOf (queryFilterClauses f false cl)).any isSingleOr = false := by
  rw [whereOf_qfc f cl h, List.any_append, whereOf_normalizeWhereOr]
  by_cases ha : (whereOf cl).any isSingleOr = true
  · rw [if_pos ha]
    simp [clauseAnd_not_singleOr _ ha, softDeleteCond_not_singleOr]
  · rw [if_neg ha]
    simp only [Bool.not_eq_true] at ha
    simp [ha, softDeleteCond_not_singleOr]

theorem lookup_qfc_ne (f : schema.Field) (u : Bool) (cl : List (String × Clause)) (k : String)
    (h1 : k ≠ "WHERE") (h2 : k ≠ "soft_delete_enabled") :
    lookupClause (queryFilterClauses f u cl) k = lookupClause cl k := by
  unfold queryFilterClauses
  split
  · rw [lookup_setAssoc_ne _ _ _ _ h2, lookup_addWhereC_ne _ _ _ h1,
      lookup_normalizeWhereOr_ne _ _ h1]
  · rfl

theorem qfc_marker_after (f : schema.Field) (cl : List (String × Clause)) :
    (lookupClause (queryFilterClauses f false cl) "soft_delete_enabled").isSome = true := by
  rcases h : lookupClause cl "soft_delete_enabled" with _ | c
  · rw [qfc_applied f cl h, lookup_setAssoc_self]
    rfl
  · rw [qfc_marker_present f false cl (by rw [h]; rfl), h]
    rfl

theorem qfc_idem (f : schema.Field) (u : Bool) (cl : List (String × Clause)) :
    queryFilterClauses f u (queryFilterClauses f u cl) = queryFilterClauses f u cl := by
  cases u
  · rcases h : lookupClause cl "soft_delete_enabled" with _ | c
    · apply qfc_marker_present
      have := qfc_marker_after f cl
      cases hl : lookupClause (queryFilterClauses f false cl) "soft_delete_enabled"
      · rw [hl] at this
        exact absurd this (by decide)
      · rfl
    · have hcl : queryFilterClauses f false cl = cl :=
        qfc_marker_present f false cl (by rw [h]; rfl)
      rw [hcl, hcl]
  · rw [qfc_unscoped, qfc_unscoped]

theorem evalWhereTail_noor (row : List (String × GoVal)) (cur acc : Bool) (es : List Expr)
    (h : es.any isSingleOr = false) :
    evalWhereTail row cur acc es = (acc || (cur && evalAllE row es)) := by
  induction es generalizing cur acc with
  | nil => simp [evalWhereTail, evalAllE]
  | cons e rest ih =>
    rw [List.any_cons, Bool.or_eq_false_iff] at h
    rw [evalWhereTail, if_neg (by simp [h.1]), ih _ _ h.2, evalAllE]
    cases acc <;> cases cur <;> simp

theorem evalWhereE_noor (row : List (String × GoVal)) (es : List Expr)
    (h : es.any isSingleOr = false) :
    evalWhereE row es = evalAllE row es := by
  cases es with
  | nil => rfl
  | cons e rest =>
    rw [List.any_cons, Bool.or_eq_false_iff] at h
    rw [evalWhereE, evalWhereTail_noor row _ _ rest h.2, evalAllE]
    simp

theorem evalAllE_false_of_mem (row : List (String × GoVal)) (x : Expr) (es : List Expr)
    (hm : x ∈ es) (hx : evalExpr row x = false) : evalAllE row es = false := by
  induction es with
  | nil => cases hm
  | cons e rest ih =>
    rcases List.mem_cons.mp hm with h | h
    · rw [evalAllE, ← h, hx, Bool.false_and]
    · rw [evalAllE, ih h, Bool.and_false]

theorem evalExpr_softDeleteCond_deleted (row : List (String × GoVal)) (f : schema.Field)
    (h : rowGet row f.DBName = GoVal.bool true) :
    evalExpr row (softDeleteCond f) = false := by
  unfold softDeleteCond
  split <;> simp [evalExpr, h, FlagActived]

theorem qm_clauses (sd : SoftDeleteQueryClause) (s : Statement) :
    (sd.ModifyStatement s).clauses = queryFilterClauses sd.Field s.unscoped s.clauses := rfl

theorem qm_unscoped (sd : SoftDeleteQueryClause) (s : Statement) :
    (sd.ModifyStatement s).unscoped = s.unscoped := rfl

theorem qm_sqlLen (sd : SoftDeleteQueryClause) (s : Statement) :
    (sd.ModifyStatement s).sqlLen = s.sqlLen := rfl

theorem qm_changed (sd : SoftDeleteQueryClause) (s : Statement) :
    (sd.ModifyStatement s).changed = s.changed := rfl

theorem deleteSetColumns_clauses (sd : SoftDeleteDeleteClause) (s : Statement) :
    (deleteSetColumns sd s).clauses =
      addSetC s.clauses ((⟨"", sd.Field.DBName⟩, GoVal.bool FlagDeleted) :: companionAssignments sd) := by
  rcases sd with ⟨f, fl, dt, daf⟩
  cases daf <;> rfl

theorem deleteSetColumns_changed (sd : SoftDeleteDeleteClause) (s : Statement) :
    (deleteSetColumns sd s).changed =
      s.changed ++ (companionAssignments sd).map (fun a => (a.1.name, a.2))
        ++ [(sd.Field.DBName, GoVal.bool FlagDeleted)] := by
  rcases sd with ⟨f, fl, dt, daf⟩
  cases daf <;> simp [deleteSetColumns, setColumn, companionAssignments]

theorem deleteSetColumns_unscoped (sd : SoftDeleteDeleteClause) (s : Statement) :
    (deleteSetColumns sd s).unscoped = s.unscoped := by
  rcases sd with ⟨f, fl, dt, daf⟩
  cases daf <;> rfl

theorem deleteSetColumns_schemaPresent (sd : SoftDeleteDeleteClause) (s : Statement) :
    (deleteSetColumns sd s).schemaPresent = s.schemaPresent := by
  rcases sd with ⟨f, fl, dt, daf⟩
  cases daf <;> rfl

theorem deleteSetColumns_destPKColumn (sd : SoftDeleteDeleteClause) (s : Statement) :
    (deleteSetColumns sd s).destPKColumn = s.destPKColumn := by
  rcases sd with ⟨f, fl, dt, daf⟩
  cases daf <;> rfl

theorem deleteSetColumns_destPKValues (sd : SoftDeleteDeleteClause) (s : Statement) :
    (deleteSetColumns sd s).destPKValues = s.destPKValues := by
  rcases sd with ⟨f, fl, dt, daf⟩
  cases daf <;> rfl

theorem deleteSetColumns_reflectCanAddr (sd : SoftDeleteDeleteClause) (s : Statement) :
    (deleteSetColumns sd s).reflectCanAddr = s.reflectCanAddr := by
  rcases sd with ⟨f, fl, dt, daf⟩
  cases daf <;> rfl

theorem deleteSetColumns_destNeModel (sd : SoftDeleteDeleteClause) (s : Statement) :
    (deleteSetColumns sd s).destNeModel = s.destNeModel := by
  rcases sd with ⟨f, fl, dt, daf⟩
  cases daf <;> rfl

theorem deleteSetColumns_modelNotNil (sd : SoftDeleteDeleteClause) (s : Statement) :
    (deleteSetColumns sd s).modelNotNil = s.modelNotNil := by
  rcases sd with ⟨f, fl, dt, daf⟩
  cases daf <;> rfl

theorem deleteSetColumns_modelPKColumn (sd : SoftDeleteDeleteClause) (s : Statement) :
    (deleteSetColumns sd s).modelPKColumn = s.modelPKColumn := by
  rcases sd with ⟨f, fl, dt, daf⟩
  cases daf <;> rfl

theorem deleteSetColumns_modelPKValues (sd : SoftDeleteDeleteClause) (s : Statement) :
    (deleteSetColumns sd s).modelPKValues = s.modelPKValues := by
  rcases sd with ⟨f, fl, dt, daf⟩
  cases daf <;> rfl

theorem deleteSetColumns_whereOf (sd : SoftDeleteDeleteClause) (s : Statement) :
    whereExprsOf (deleteSetColumns sd s) = whereExprsOf s := by
  unfold whereExprsOf
  rw [deleteSetColumns_clauses, whereOf_addSetC]

theorem lookup_deleteSetColumns_ne (sd : SoftDeleteDeleteClause) (s : Statement) (k : String)
    (h : k ≠ "SET") :
    lookupClause (deleteSetColumns sd s).clauses k = lookupClause s.clauses k := by
  rw [deleteSetColumns_clauses, lookup_addSetC_ne _ _ _ h]

theorem addINIfAny_clauses (s : Statement) (col : InColumn) (vals : List GoVal) :
    (addINIfAny s col vals).clauses =
      if 0 < vals.length then addWhereC s.clauses [.inPred col vals] else s.clauses := by
  unfold addINIfAny
  split <;> simp_all

theorem addINIfAny_whereOf (s : Statement) (col : InColumn) (vals : List GoVal) :
    whereExprsOf (addINIfAny s col vals) =
      whereExprsOf s ++ (if 0 < vals.length then [Expr.inPred col vals] else []) := by
  unfold whereExprsOf
  rw [addINIfAny_clauses]
  split
  · rw [whereOf_addWhereC]
  · simp

theorem addINIfAny_lookup_ne (s : Statement) (col : InColumn) (vals : List GoVal) (k : String)
    (h : k ≠ "WHERE") :
    lookupClause (addINIfAny s col vals).clauses k = lookupClause s.clauses k := by
  rw [addINIfAny_clauses]
  split
  · rw [lookup_addWhereC_ne _ _ _ h]
  · rfl

theorem addINIfAny_unscoped (s : Statement) (col : InColumn) (vals : List GoVal) :
    (addINIfAny s col vals).unscoped = s.unscoped := by
  unfold addINIfAny
  split <;> rfl

theorem addINIfAny_changed (s : Statement) (col : InColumn) (vals : List GoVal) :
    (addINIfAny s col vals).changed = s.changed := by
  unfold addINIfAny
  split <;> rfl

theorem addINIfAny_reflectCanAddr (s : Statement) (col : InColumn) (vals : List GoVal) :
    (addINIfAny s col vals).reflectCanAddr = s.reflectCanAddr := by
  unfold addINIfAny
  split <;> rfl

theorem addINIfAny_destNeModel (s : Statement) (col : InColumn) (vals : List GoVal) :
    (addINIfAny s col vals).destNeModel = s.destNeModel := by
  unfold addINIfAny
  split <;> rfl

theorem addINIfAny_modelNotNil (s : Statement) (col : InColumn) (vals : List GoVal) :
    (addINIfAny s col vals).modelNotNil = s.modelNotNil := by
  unfold addINIfAny
  split <;> rfl

theorem addINIfAny_modelPKColumn (s : Statement) (col : InColumn) (vals : List GoVal) :
    (addINIfAny s col vals).modelPKColumn = s.modelPKColumn := by
  unfold addINIfAny
  split <;> rfl

theorem addINIfAny_modelPKValues (s : Statement) (col : InColumn) (vals : List GoVal) :
    (addINIfAny s col vals).modelPKValues = s.modelPKValues := by
  unfold addINIfAny
  split <;> rfl

theorem addINIfAny_unchanged (s : Statement) (col : InColumn) (vals : List GoVal)
    (h : vals.length = 0) : addINIfAny s col vals = s := by
  unfold addINIfAny
  rw [if_neg]
  omega

theorem deleteIdentityWheres_whereOf (stmt : Statement) :
    whereExprsOf (deleteIdentityWheres stmt) = whereExprsOf stmt ++ identityIns stmt := by
  unfold deleteIdentityWheres identityIns
  by_cases hs : stmt.schemaPresent = true
  · rw [if_pos hs, if_pos hs]
    simp only [addINIfAny_reflectCanAddr, addINIfAny_destNeModel, addINIfAny_modelNotNil,
      addINIfAny_modelPKColumn, addINIfAny_modelPKValues]
    by_cases hg : stmt.reflectCanAddr = true ∧ stmt.destNeModel = true ∧ stmt.modelNotNil = true
    · rw [if_pos hg, if_pos hg, addINIfAny_whereOf, addINIfAny_whereOf, List.append_assoc]
    · rw [if_neg hg, if_neg hg, addINIfAny_whereOf, List.append_nil]
  · rw [if_neg hs, if_neg hs, List.append_nil]

theorem deleteIdentityWheres_lookup_ne (stmt : Statement) (k : String) (h : k ≠ "WHERE") :
    lookupClause (deleteIdentityWheres stmt).clauses k = lookupClause stmt.clauses k := by
  unfold deleteIdentityWheres
  by_cases hs : stmt.schemaPresent = true
  · rw [if_pos hs]
    simp only [addINIfAny_reflectCanAddr, addINIfAny_destNeModel, addINIfAny_modelNotNil]
    by_cases hg : stmt.reflectCanAddr = true ∧ stmt.destNeModel = true ∧ stmt.modelNotNil = true
    · rw [if_pos hg, addINIfAny_lookup_ne _ _ _ _ h, addINIfAny_lookup_ne _ _ _ _ h]
    · rw [if_neg hg, addINIfAny_lookup_ne _ _ _ _ h]
  · rw [if_neg hs]

theorem deleteIdentityWheres_changed (stmt : Statement) :
    (deleteIdentityWheres stmt).changed = stmt.changed := by
  unfold deleteIdentityWheres
  by_cases hs : stmt.schemaPresent = true
  · rw [if_pos hs]
    dsimp only
    split
    · rw [addINIfAny_changed, addINIfAny_changed]
    · rw [addINIfAny_changed]
  · rw [if_neg hs]

theorem deleteIdentityWheres_unscoped (stmt : Statement) :
    (deleteIdentityWheres stmt).unscoped = stmt.unscoped := by
  unfold deleteIdentityWheres
  by_cases hs : stmt.schemaPresent = true
  · rw [if_pos hs]
    dsimp only
    split
    · rw [addINIfAny_unscoped, addINIfAny_unscoped]
    · rw [addINIfAny_unscoped]
  · rw [if_neg hs]

theorem addUpdateIfNotExists_whereOf (s : Statement) :
    whereExprsOf (addUpdateIfNotExists s) = whereExprsOf s := by
  unfold whereExprsOf addUpdateIfNotExists
  exact whereOf_addUpdateC s.clauses

theorem addUpdateIfNotExists_lookup_ne (s : Statement) (k : String) (h : k ≠ "UPDATE") :
    lookupClause (addUpdateIfNotExists s).clauses k = lookupClause s.clauses k :=
  lookup_addUpdateC_ne s.clauses k h

theorem runUpdateBuild_clauses (s : Statement) : (runUpdateBuild s).clauses = s.clauses := rfl

theorem runUpdateBuild_changed (s : Statement) : (runUpdateBuild s).changed = s.changed := rfl

theorem dm_applied (sd : SoftDeleteDeleteClause) (stmt : Statement)
    (hsql : stmt.sqlLen = 0) (hscope : stmt.unscoped = false) :
    sd.ModifyStatement stmt =
      runUpdateBuild (addUpdateIfNotExists
        (SoftDeleteQueryClause.ModifyStatement ⟨sd.Field⟩
          (deleteIdentityWheres (deleteSetColumns sd stmt)))) := by
  unfold SoftDeleteDeleteClause.ModifyStatement
  rw [if_pos ⟨hsql, hscope⟩]

theorem qm_eq_self_of_fix (sd : SoftDeleteQueryClause) (s : Statement)
    (h : queryFilterClauses sd.Field s.unscoped s.clauses = s.clauses) :
    sd.ModifyStatement s = s := by
  unfold SoftDeleteQueryClause.ModifyStatement
  rw [h]

/-- Claim C1: with the idempotency marker absent and unscoped access not
requested, the query filter appends to the WHERE expression list a
condition `field = FlagActived`, or `field IS NULL` (equality to the nil
value) when the declared default value of the field is the string
"null". -/
theorem query_filter_appends_active_condition (sd : SoftDeleteQueryClause) (stmt : Statement)
    (hmarker : lookupClause stmt.clauses "soft_delete_enabled" = none)
    (hscope : stmt.unscoped = false) :
    ∃ pre : List Expr,
      whereExprsOf (sd.ModifyStatement stmt) =
        pre ++ [if sd.Field.DefaultValue = "null" then
            Expr.eq ⟨currentTable, sd.Field.DBName⟩ GoVal.null
          else Expr.eq ⟨currentTable, sd.Field.DBName⟩ (GoVal.bool FlagActived)] := by
  refine ⟨whereOf (normalizeWhereOr stmt.clauses), ?_⟩
  have h1 : whereExprsOf (sd.ModifyStatement stmt) =
      whereOf (normalizeWhereOr stmt.clauses) ++ [softDeleteCond sd.Field] := by
    unfold whereExprsOf
    rw [qm_clauses, hscope, whereOf_qfc _ _ hmarker]
  rw [h1]
  rfl

/-- Witness for C1 at a fresh statement and a boolean-default field. -/
theorem query_filter_appends_active_condition_witness :
    ∃ pre : List Expr,
      whereExprsOf (SoftDeleteQueryClause.ModifyStatement sampleQueryClause emptyStmt) =
        pre ++ [if sampleQueryClause.Field.DefaultValue = "null" then
            Expr.eq ⟨currentTable, sampleQueryClause.Field.DBName⟩ GoVal.null
          else Expr.eq ⟨currentTable, sampleQueryClause.Field.DBName⟩ (GoVal.bool FlagActived)] :=
  query_filter_appends_active_condition sampleQueryClause emptyStmt rfl rfl

/-- Claim C5: on an unscoped statement each of the three hooks is the
identity: no predicate is injected and no delete-to-update rewrite
occurs. -/
theorem unscoped_hooks_leave_statement_unchanged (sdq : SoftDeleteQueryClause)
    (sdu : SoftDeleteUpdateClause) (sdd : SoftDeleteDeleteClause) (stmt : Statement)
    (h : stmt.unscoped = true) :
    sdq.ModifyStatement stmt = stmt ∧ sdu.ModifyStatement stmt = stmt ∧
      sdd.ModifyStatement stmt = stmt := by
  refine ⟨?_, ?_, ?_⟩
  · apply qm_eq_self_of_fix
    rw [h, qfc_unscoped]
  · unfold SoftDeleteUpdateClause.ModifyStatement
    rw [if_neg]
    intro hc
    rw [h] at hc
    exact Bool.false_ne_true hc.2.symm
  · unfold SoftDeleteDeleteClause.ModifyStatement
    rw [if_neg]
    intro hc
    rw [h] at hc
    exact Bool.false_ne_true hc.2.symm

/-- Witness for C5 at a concrete unscoped statement. -/
theorem unscoped_hooks_leave_statement_unchanged_witness :
    SoftDeleteQueryClause.ModifyStatement sampleQueryClause unscopedStmt = unscopedStmt ∧
    SoftDeleteUpdateClause.ModifyStatement sampleUpdateClause unscopedStmt = unscopedStmt ∧
    SoftDeleteDeleteClause.ModifyStatement sampleDeleteClause unscopedStmt = unscopedStmt :=
  unscoped_hooks_leave_statement_unchanged sampleQueryClause sampleUpdateClause
    sampleDeleteClause unscopedStmt rfl

/-- Claim C6: with an empty SQL buffer and scoped access the update filter
has exactly the effect of the query filter on the same field; with a
non-empty buffer or unscoped access it leaves the statement unchanged. -/
theorem update_filter_matches_query_filter (f : schema.Field) (stmt : Statement) :
    (stmt.sqlLen = 0 ∧ stmt.unscoped = false →
      SoftDeleteUpdateClause.ModifyStatement ⟨f⟩ stmt =
        SoftDeleteQueryClause.ModifyStatement ⟨f⟩ stmt)
    ∧ (0 < stmt.sqlLen ∨ stmt.unscoped = true →
      SoftDeleteUpdateClause.ModifyStatement ⟨f⟩ stmt = stmt) := by
  constructor
  · intro h
    unfold SoftDeleteUpdateClause.ModifyStatement
    rw [if_pos h]
  · intro h
    unfold SoftDeleteUpdateClause.ModifyStatement
    rw [if_neg]
    intro hc
    rcases h with h | h
    · omega
    · rw [h] at hc
      exact Bool.false_ne_true hc.2.symm

/-- Witness for C6: the matching case at a fresh statement, the frame case
at a statement with a non-empty SQL buffer. -/
theorem update_filter_matches_query_filter_witness :
    SoftDeleteUpdateClause.ModifyStatement ⟨sampleField⟩ emptyStmt =
      SoftDeleteQueryClause.ModifyStatement ⟨sampleField⟩ emptyStmt ∧
    SoftDeleteUpdateClause.ModifyStatement ⟨sampleField⟩ builtStmt = builtStmt :=
  ⟨(update_filter_matches_query_filter sampleField emptyStmt).1 ⟨rfl, rfl⟩,
   (update_filter_matches_query_filter sampleField builtStmt).2 (Or.inl (by decide))⟩

/-- Claim C7: when some top-level WHERE expression is an or-combination
with a single branch, the query filter wraps all existing top-level
expressions into one explicit AND and appends the soft-delete condition
after it, so the appended filter is not an OR term. -/
theorem query_filter_normalizes_or_conditions (sd : SoftDeleteQueryClause) (stmt : Statement)
    (hmarker : lookupClause stmt.clauses "soft_delete_enabled" = none)
    (hscope : stmt.unscoped = false)
    (hor : (whereExprsOf stmt).any isSingleOr = true) :
    whereExprsOf (sd.ModifyStatement stmt) =
      [Expr.andConds (whereExprsOf stmt), softDeleteCond sd.Field] := by
  unfold whereExprsOf at hor ⊢
  rw [qm_clauses, hscope, whereOf_qfc _ _ hmarker, whereOf_normalizeWhereOr,
    if_pos hor, clauseAnd_of_any_singleOr _ hor]
  rfl

/-- Witness for C7 at a statement whose WHERE clause ends in a one-branch
or-condition. -/
theorem query_filter_normalizes_or_conditions_witness :
    whereExprsOf (SoftDeleteQueryClause.ModifyStatement sampleQueryClause orStmt) =
      [Expr.andConds (whereExprsOf orStmt), softDeleteCond sampleQueryClause.Field] :=
  query_filter_normalizes_or_conditions sampleQueryClause orStmt rfl rfl rfl

/-- Counterexample to C8 as stated: on an unscoped statement the marker is
not present after the query filter has run once. -/
theorem query_filter_unscoped_marker_cex :
    lookupClause
      (SoftDeleteQueryClause.ModifyStatement sampleQueryClause unscopedStmt).clauses
      "soft_delete_enabled" = none := rfl

/-- Claim C8 (amended): when unscoped access is not requested the marker is
present after one run of the query filter; re-running the query filter, or
the update filter that embeds it, always leaves the statement unchanged. -/
theorem query_filter_idempotent (sd : SoftDeleteQueryClause) (stmt : Statement) :
    (stmt.unscoped = false →
      (lookupClause (sd.ModifyStatement stmt).clauses "soft_delete_enabled").isSome = true)
    ∧ sd.ModifyStatement (sd.ModifyStatement stmt) = sd.ModifyStatement stmt
    ∧ SoftDeleteUpdateClause.ModifyStatement ⟨sd.Field⟩ (sd.ModifyStatement stmt) =
        sd.ModifyStatement stmt := by
  have hidem : sd.ModifyStatement (sd.ModifyStatement stmt) = sd.ModifyStatement stmt := by
    apply qm_eq_self_of_fix
    rw [qm_unscoped, qm_clauses, qfc_idem]
  refine ⟨?_, hidem, ?_⟩
  · intro h
    rw [qm_clauses, h]
    exact qfc_marker_after sd.Field stmt.clauses
  · unfold SoftDeleteUpdateClause.ModifyStatement
    split
    · exact hidem
    · rfl

/-- Witness for C8 at a fresh scoped statement. -/
theorem query_filter_idempotent_witness :
    (lookupClause (SoftDeleteQueryClause.ModifyStatement sampleQueryClause emptyStmt).clauses
      "soft_delete_enabled").isSome = true ∧
    SoftDeleteQueryClause.ModifyStatement sampleQueryClause
        (SoftDeleteQueryClause.ModifyStatement sampleQueryClause emptyStmt) =
      SoftDeleteQueryClause.ModifyStatement sampleQueryClause emptyStmt :=
  ⟨(query_filter_idempotent sampleQueryClause emptyStmt).1 rfl,
   (query_filter_idempotent sampleQueryClause emptyStmt).2.1⟩

/-- Claim C9: `Scan` fails exactly on non-boolean stored values; on boolean
inputs it succeeds, the resulting flag marshals back through `Value` to the
original boolean, and `Value` itself never returns an error. -/
theorem deletedAt_scan_value_roundtrip :
    (∀ (b : Bool) (v : GoVal), (DeletedAt.Scan b v).2 = none ↔ v.isBool = true)
    ∧ (∀ (b bv : Bool), DeletedAt.Scan b (.bool bv) = (bv, none)
        ∧ DeletedAt.Value (DeletedAt.Scan b (.bool bv)).1 = (.bool bv, none))
    ∧ ∀ (b : Bool), (DeletedAt.Value b).2 = none := by
  refine ⟨?_, ?_, ?_⟩
  · intro b v
    cases v with
    | bool bv => cases bv <;> simp [DeletedAt.Scan, GoVal.isBool]
    | null => simp [DeletedAt.Scan, GoVal.isBool]
    | int n => simp [DeletedAt.Scan, GoVal.isBool]
    | str s => simp [DeletedAt.Scan, GoVal.isBool]
  · intro b bv
    cases bv <;> simp [DeletedAt.Scan, DeletedAt.Value]
  · intro b
    cases b <;> rfl

/-- Claim C10: a failed decode leaves the receiver untouched: on a
non-boolean input `Scan` returns the error and the prior flag value. -/
theorem deletedAt_scan_error_preserves_receiver (b : Bool) (v : GoVal)
    (h : v.isBool = false) :
    DeletedAt.Scan b v = (b, some "Invalid data type for DeletedAt") := by
  cases v with
  | bool bv => simp [GoVal.isBool] at h
  | null => rfl
  | int n => rfl
  | str s => rfl

/-- Witness for C10 at a string input with the receiver previously true. -/
theorem deletedAt_scan_error_preserves_receiver_witness :
    DeletedAt.Scan true (.str "2024") = (true, some "Invalid data type for DeletedAt") :=
  deletedAt_scan_error_preserves_receiver true (.str "2024") rfl

theorem addUpdateIfNotExists_changed (s : Statement) :
    (addUpdateIfNotExists s).changed = s.changed := rfl

theorem runUpdateBuild_whereOf (s : Statement) :
    whereExprsOf (runUpdateBuild s) = whereExprsOf s := rfl

theorem lookup_addUpdateC_none (cl : List (String × Clause))
    (h : lookupClause cl "UPDATE" = none) :
    lookupClause (addUpdateC cl) "UPDATE" = some ⟨"UPDATE", some .updateC⟩ := by
  unfold addUpdateC
  rw [h]
  exact lookup_setAssoc_self _ _ _

theorem identityIns_deleteSetColumns (sd : SoftDeleteDeleteClause) (stmt : Statement) :
    identityIns (deleteSetColumns sd stmt) = identityIns stmt := by
  unfold identityIns
  rw [deleteSetColumns_schemaPresent, deleteSetColumns_destPKValues,
    deleteSetColumns_destPKColumn, deleteSetColumns_reflectCanAddr,
    deleteSetColumns_destNeModel, deleteSetColumns_modelNotNil,
    deleteSetColumns_modelPKColumn, deleteSetColumns_modelPKValues]

theorem identityIns_noor (s : Statement) : (identityIns s).any isSingleOr = false := by
  unfold identityIns
  split
  · rw [List.any_append]
    apply Bool.or_eq_false_iff.mpr
    constructor
    · split <;> rfl
    · split
      · split <;> rfl
      · rfl
  · rfl

theorem identityIns_nil_of_empty (s : Statement) (h1 : s.destPKValues.length = 0)
    (h2 : s.modelPKValues.length = 0) : identityIns s = [] := by
  unfold identityIns
  split
  · rw [if_neg (by omega)]
    simp only [List.nil_append]
    split
    · rw [if_neg (by omega)]
    · rfl
  · rfl

/-- Claim C2: on a delete statement with empty SQL buffer and scoped
access, the rewriter stores a SET clause assigning `FlagDeleted` to the
soft-delete column first and, when a companion deletion field exists, the
companion column to its sentinel (`true` for boolean companions, the nil
value otherwise); both assignments are also recorded on the change-set
through `SetColumn`, companion first. -/
theorem delete_rewriter_sets_flag_assignments (sd : SoftDeleteDeleteClause) (stmt : Statement)
    (hsql : stmt.sqlLen = 0) (hscope : stmt.unscoped = false) :
    lookupClause (sd.ModifyStatement stmt).clauses "SET" =
      some ⟨"SET", some (.setC ((⟨"", sd.Field.DBName⟩, GoVal.bool FlagDeleted)
        :: companionAssignments sd))⟩
    ∧ (sd.ModifyStatement stmt).changed =
        stmt.changed ++ (companionAssignments sd).map (fun a => (a.1.name, a.2))
          ++ [(sd.Field.DBName, GoVal.bool FlagDeleted)]
    ∧ ∀ daf : schema.Field, sd.DeleteAtField = some daf → daf.GORMDataType = "bool" →
        companionAssignments sd = [(⟨"", daf.DBName⟩, GoVal.bool true)] := by
  rw [dm_applied sd stmt hsql hscope]
  refine ⟨?_, ?_, ?_⟩
  · rw [runUpdateBuild_clauses, addUpdateIfNotExists_lookup_ne _ _ (by decide), qm_clauses,
      lookup_qfc_ne _ _ _ _ (by decide) (by decide),
      deleteIdentityWheres_lookup_ne _ _ (by decide), deleteSetColumns_clauses]
    exact lookup_setAssoc_self _ _ _
  · rw [runUpdateBuild_changed, addUpdateIfNotExists_changed, qm_changed,
      deleteIdentityWheres_changed, deleteSetColumns_changed]
  · intro daf hdaf hbool
    unfold companionAssignments
    rw [hdaf]
    simp [companionValue, hbool]

/-- Witness for C2 at a fresh delete statement whose clause set carries a
boolean companion deletion field. -/
theorem delete_rewriter_sets_flag_assignments_witness :
    lookupClause
        (SoftDeleteDeleteClause.ModifyStatement sampleDeleteClauseWithCompanion
          emptyStmt).clauses "SET" =
      some ⟨"SET", some (.setC ((⟨"", sampleDeleteClauseWithCompanion.Field.DBName⟩,
          GoVal.bool FlagDeleted) :: companionAssignments sampleDeleteClauseWithCompanion))⟩
    ∧ (SoftDeleteDeleteClause.ModifyStatement sampleDeleteClauseWithCompanion
        emptyStmt).changed =
        emptyStmt.changed
          ++ (companionAssignments sampleDeleteClauseWithCompanion).map
              (fun a => (a.1.name, a.2))
          ++ [(sampleDeleteClauseWithCompanion.Field.DBName, GoVal.bool FlagDeleted)]
    ∧ ∀ daf : schema.Field, sampleDeleteClauseWithCompanion.DeleteAtField = some daf →
        daf.GORMDataType = "bool" →
        companionAssignments sampleDeleteClauseWithCompanion =
          [(⟨"", daf.DBName⟩, GoVal.bool true)] :=
  delete_rewriter_sets_flag_assignments sampleDeleteClauseWithCompanion emptyStmt rfl rfl

/-- Claim C3: the delete rewriter runs the query filter on the rewritten
statement, so the produced UPDATE carries the soft-delete condition in its
WHERE list, the whole WHERE list evaluates to false on any row whose flag
is already `FlagDeleted`, and the statement carries the UPDATE clause:
deleting an already-deleted record matches zero rows. -/
theorem delete_rewriter_excludes_deleted_rows (sd : SoftDeleteDeleteClause) (stmt : Statement)
    (row : List (String × GoVal))
    (hsql : stmt.sqlLen = 0) (hscope : stmt.unscoped = false)
    (hmarker : lookupClause stmt.clauses "soft_delete_enabled" = none)
    (hupd : lookupClause stmt.clauses "UPDATE" = none)
    (hrow : rowGet row sd.Field.DBName = GoVal.bool FlagDeleted) :
    softDeleteCond sd.Field ∈ whereExprsOf (sd.ModifyStatement stmt)
    ∧ evalWhereE row (whereExprsOf (sd.ModifyStatement stmt)) = false
    ∧ lookupClause (sd.ModifyStatement stmt).clauses "UPDATE" =
        some ⟨"UPDATE", some Expr.updateC⟩ := by
  rw [dm_applied sd stmt hsql hscope]
  have hm4 : lookupClause (deleteIdentityWheres (deleteSetColumns sd stmt)).clauses
      "soft_delete_enabled" = none := by
    rw [deleteIdentityWheres_lookup_ne _ _ (by decide),
      lookup_deleteSetColumns_ne _ _ _ (by decide), hmarker]
  have hu4 : (deleteIdentityWheres (deleteSetColumns sd stmt)).unscoped = false := by
    rw [deleteIdentityWheres_unscoped, deleteSetColumns_unscoped, hscope]
  have hwout : whereExprsOf (runUpdateBuild (addUpdateIfNotExists
      (SoftDeleteQueryClause.ModifyStatement ⟨sd.Field⟩
        (deleteIdentityWheres (deleteSetColumns sd stmt))))) =
      whereOf (queryFilterClauses sd.Field false
        (deleteIdentityWheres (deleteSetColumns sd stmt)).clauses) := by
    rw [runUpdateBuild_whereOf, addUpdateIfNotExists_whereOf]
    unfold whereExprsOf
    rw [qm_clauses, hu4]
  refine ⟨?_, ?_, ?_⟩
  · rw [hwout, whereOf_qfc _ _ hm4]
    exact List.mem_append_right _ (List.mem_singleton_self _)
  · rw [hwout]
    rw [evalWhereE_noor row _ (qfc_out_noor sd.Field _ hm4)]
    apply evalAllE_false_of_mem row (softDeleteCond sd.Field)
    · rw [whereOf_qfc _ _ hm4]
      exact List.mem_append_right _ (List.mem_singleton_self _)
    · exact evalExpr_softDeleteCond_deleted row sd.Field hrow
  · rw [runUpdateBuild_clauses]
    apply lookup_addUpdateC_none
    rw [qm_clauses, hu4, lookup_qfc_ne _ _ _ _ (by decide) (by decide),
      deleteIdentityWheres_lookup_ne _ _ (by decide),
      lookup_deleteSetColumns_ne _ _ _ (by decide), hupd]

/-- Witness for C3 at a fresh delete statement and the row with the flag
already set. -/
theorem delete_rewriter_excludes_deleted_rows_witness :
    softDeleteCond sampleDeleteClause.Field ∈
      whereExprsOf (SoftDeleteDeleteClause.ModifyStatement sampleDeleteClause emptyStmt)
    ∧ evalWhereE deletedRow
        (whereExprsOf (SoftDeleteDeleteClause.ModifyStatement sampleDeleteClause emptyStmt)) =
        false
    ∧ lookupClause
        (SoftDeleteDeleteClause.ModifyStatement sampleDeleteClause emptyStmt).clauses
        "UPDATE" = some ⟨"UPDATE", some Expr.updateC⟩ :=
  delete_rewriter_excludes_deleted_rows sampleDeleteClause emptyStmt deletedRow
    rfl rfl rfl rfl (by decide)

/-- Claim C4: under the delete rewrite, the identity values read from the
destination object form an IN predicate in the WHERE list whenever some
resolved, and the identity values read from the model object do likewise
when the reflect value is addressable, the destination differs from the
model, the model is non-nil and some value resolved; when no identity
values resolve for either source, no IN predicate is added at all. -/
theorem delete_rewriter_identity_in_predicates (sd : SoftDeleteDeleteClause) (stmt : Statement)
    (hsql : stmt.sqlLen = 0) (hscope : stmt.unscoped = false)
    (hnoor : (whereExprsOf stmt).any isSingleOr = false) :
    (stmt.schemaPresent = true → 0 < stmt.destPKValues.length →
      Expr.inPred stmt.destPKColumn stmt.destPKValues ∈ whereExprsOf (sd.ModifyStatement stmt))
    ∧ (stmt.schemaPresent = true → stmt.reflectCanAddr = true → stmt.destNeModel = true →
        stmt.modelNotNil = true → 0 < stmt.modelPKValues.length →
      Expr.inPred stmt.modelPKColumn stmt.modelPKValues ∈ whereExprsOf (sd.ModifyStatement stmt))
    ∧ (stmt.destPKValues.length = 0 → stmt.modelPKValues.length = 0 →
        ∀ (ic : InColumn) (vs : List GoVal),
          Expr.inPred ic vs ∈ whereExprsOf (sd.ModifyStatement stmt) →
          Expr.inPred ic vs ∈ whereExprsOf stmt) := by
  have hu4 : (deleteIdentityWheres (deleteSetColumns sd stmt)).unscoped = false := by
    rw [deleteIdentityWheres_unscoped, deleteSetColumns_unscoped, hscope]
  have hw4 : whereExprsOf (deleteIdentityWheres (deleteSetColumns sd stmt)) =
      whereExprsOf stmt ++ identityIns stmt := by
    rw [deleteIdentityWheres_whereOf, deleteSetColumns_whereOf, identityIns_deleteSetColumns]
  have hmain : whereExprsOf (sd.ModifyStatement stmt) =
        whereExprsOf stmt ++ identityIns stmt
      ∨ whereExprsOf (sd.ModifyStatement stmt) =
        (whereExprsOf stmt ++ identityIns stmt) ++ [softDeleteCond sd.Field] := by
    rw [dm_applied sd stmt hsql hscope]
    have hwout : whereExprsOf (runUpdateBuild (addUpdateIfNotExists
        (SoftDeleteQueryClause.ModifyStatement ⟨sd.Field⟩
          (deleteIdentityWheres (deleteSetColumns sd stmt))))) =
        whereOf (queryFilterClauses sd.Field false
          (deleteIdentityWheres (deleteSetColumns sd stmt)).clauses) := by
      rw [runUpdateBuild_whereOf, addUpdateIfNotExists_whereOf]
      unfold whereExprsOf
      rw [qm_clauses, hu4]
    rcases hm : lookupClause (deleteIdentityWheres (deleteSetColumns sd stmt)).clauses
        "soft_delete_enabled" with _ | c
    · right
      rw [hwout, whereOf_qfc_noor _ _ hm, ← hw4]
      · rfl
      · show (whereExprsOf (deleteIdentityWheres (deleteSetColumns sd stmt))).any
            isSingleOr = false
        rw [hw4, List.any_append, hnoor, identityIns_noor]
        rfl
    · left
      rw [hwout, qfc_marker_present _ _ _ (by rw [hm]; rfl), ← hw4]
      rfl
  refine ⟨?_, ?_, ?_⟩
  · intro hsp hlen
    have hin : Expr.inPred stmt.destPKColumn stmt.destPKValues ∈ identityIns stmt := by
      unfold identityIns
      rw [if_pos hsp, if_pos hlen]
      exact List.mem_append_left _ (List.mem_singleton_self _)
    rcases hmain with h | h
    · rw [h]
      exact List.mem_append_right _ hin
    · rw [h]
      exact List.mem_append_left _ (List.mem_append_right _ hin)
  · intro hsp hca hne hnn hlen
    have hg : stmt.reflectCanAddr = true ∧ stmt.destNeModel = true ∧ stmt.modelNotNil = true :=
      ⟨hca, hne, hnn⟩
    have hin : Expr.inPred stmt.modelPKColumn stmt.modelPKValues ∈ identityIns stmt := by
      unfold identityIns
      rw [if_pos hsp]
      apply List.mem_append_right
      rw [if_pos hg, if_pos hlen]
      exact List.mem_singleton_self _
    rcases hmain with h | h
    · rw [h]
      exact List.mem_append_right _ hin
    · rw [h]
      exact List.mem_append_left _ (List.mem_append_right _ hin)
  · intro h1 h2 ic vs hmem
    have hnil := identityIns_nil_of_empty stmt h1 h2
    rcases hmain with h | h
    · rw [h, hnil, List.append_nil] at hmem
      exact hmem
    · rw [h, hnil, List.append_nil] at hmem
      rcases List.mem_append.mp hmem with hmem | hmem
      · exact hmem
      · have heq := List.mem_singleton.mp hmem
        unfold softDeleteCond at heq
        split at heq <;> simp at heq

/-- Witness for C4 at a fresh delete statement with one destination
identity value. -/
theorem delete_rewriter_identity_in_predicates_witness :
    Expr.inPred emptyStmt.destPKColumn emptyStmt.destPKValues ∈
      whereExprsOf (SoftDeleteDeleteClause.ModifyStatement sampleDeleteClause emptyStmt) :=
  (delete_rewriter_identity_in_predicates sampleDeleteClause emptyStmt rfl rfl rfl).1
    rfl (by decide)
